import Mathlib

/-!
Verification of the phoenix trace-discovery pipeline.

This file is a shallow embedding of the discovery core found in
`src/phoenix/discovery` (`models.py`, `badness.py`, `features.py`,
`clustering.py`, `slicing.py`).  Python floats are modelled by `ℚ`,
Python strings either by `String` or (where character-level slicing
matters) by `List Char`, Python dicts by association lists in insertion
order.  External numeric libraries are abstracted as function
parameters: scipy's `chi2_contingency` p-value becomes the oracle
`chi2`, sklearn's `StandardScaler.fit_transform` becomes `scaler`, and
the HDBSCAN/KMeans label assignment becomes `labeler`.  Every theorem
proved below holds for all values of those oracles.
-/

namespace Phoenix

/-! ## Data model (`models.py`) -/

/-- `TraceFeatures` from `models.py`.  `text_embedding` is an optional
dense vector (`np.ndarray` becomes `List ℚ`), `tool_ngrams` a dict in
insertion order, eval scores optional floats. -/
structure TraceFeatures where
  trace_id : String
  input_text : String := ""
  output_text : String := ""
  text_embedding : Option (List ℚ) := none
  tool_sequence : List String := []
  tool_ngrams : List (String × ℕ) := []
  tool_success_rate : ℚ := 1
  unique_tools_used : ℕ := 0
  total_latency_ms : ℚ := 0
  llm_latency_ms : ℚ := 0
  tool_latency_ms : ℚ := 0
  total_tokens : ℕ := 0
  llm_calls : ℕ := 0
  tool_calls : ℕ := 0
  retry_count : ℕ := 0
  error_count : ℕ := 0
  intent : String := "unknown"
  route : String := "unknown"
  model : String := "unknown"
  provider : String := "unknown"
  prompt_version : String := "unknown"
  quality_score : Option ℚ := none
  grounding_score : Option ℚ := none
  deriving DecidableEq, Repr

/-- The five signal values of `compute_badness`.  The Python code keeps
them in a `dict[str, float]` whose keys are always exactly
`quality_eval, grounding_eval, tool_errors, latency, error_count`
(in that insertion order), so a record is a faithful model. -/
structure SignalValues where
  quality_eval : ℚ
  grounding_eval : ℚ
  tool_errors : ℚ
  latency : ℚ
  error_count : ℚ
  deriving DecidableEq, Repr

/-- `BadnessScore` from `models.py`. -/
structure BadnessScore where
  trace_id : String
  score : ℚ
  signals : SignalValues
  deriving DecidableEq, Repr

/-- `BadnessWeights` from `badness.py` with its dataclass defaults. -/
structure BadnessWeights where
  quality_eval : ℚ := 3/10
  grounding_eval : ℚ := 1/5
  tool_errors : ℚ := 1/5
  latency : ℚ := 1/10
  error_count : ℚ := 1/5
  deriving DecidableEq, Repr

/-- `DEFAULT_WEIGHTS = BadnessWeights()` from `badness.py`. -/
def DEFAULT_WEIGHTS : BadnessWeights := {}

/-- `Slice` from `models.py`; `attributes` is a dict in insertion order. -/
structure Slice where
  attributes : List (String × String)
  trace_ids : List String
  size : ℕ
  badness_rate : ℚ
  baseline_rate : ℚ
  lift : ℚ
  p_value : ℚ
  deriving DecidableEq, Repr

/-- `ClusterResult` from `models.py`. -/
structure ClusterResult where
  cluster_id : ℤ
  trace_ids : List String
  size : ℕ
  badness_rate : ℚ := 0
  avg_badness : ℚ := 0
  dominant_intent : String := "unknown"
  dominant_route : String := "unknown"
  dominant_model : String := "unknown"
  example_trace_ids : List String := []
  centroid : Option (List ℚ) := none
  deriving DecidableEq, Repr

/-! ## Badness aggregation (`badness.py`, `compute_badness`) -/

/-- Signal `quality_eval`: `1 - quality_score`, `0.5` when absent. -/
def quality_signal (f : TraceFeatures) : ℚ :=
  match f.quality_score with
  | some q => 1 - q
  | none => 1/2

/-- Signal `grounding_eval`: `1 - grounding_score`, `0.5` when absent. -/
def grounding_signal (f : TraceFeatures) : ℚ :=
  match f.grounding_score with
  | some g => 1 - g
  | none => 1/2

/-- Signal `tool_errors = 1.0 - features.tool_success_rate`. -/
def tool_error_signal (f : TraceFeatures) : ℚ := 1 - f.tool_success_rate

/-- Signal `latency`: `min(total_latency_ms / p95, 1.0)` when both are
positive, otherwise `0.0`. -/
def latency_signal (f : TraceFeatures) (p95_latency_ms : ℚ) : ℚ :=
  if 0 < f.total_latency_ms ∧ 0 < p95_latency_ms then
    min (f.total_latency_ms / p95_latency_ms) 1
  else 0

/-- Signal `error_count`: `min(error_count / 3.0, 1.0)` when positive,
otherwise `0.0`. -/
def error_count_signal (f : TraceFeatures) : ℚ :=
  if 0 < f.error_count then min ((f.error_count : ℚ) / 3) 1 else 0

/-- `total_weight = sum(weight_dict.get(k, 0) for k in signals)`: the
signal keys are exactly the five weight fields, so it is their sum. -/
def total_weight (w : BadnessWeights) : ℚ :=
  w.quality_eval + w.grounding_eval + w.tool_errors + w.latency + w.error_count

/-- `sum(signals[k] * weight_dict.get(k, 0) for k in signals)`. -/
def weighted_signal_sum (f : TraceFeatures) (p95_latency_ms : ℚ) (w : BadnessWeights) : ℚ :=
  quality_signal f * w.quality_eval + grounding_signal f * w.grounding_eval +
    tool_error_signal f * w.tool_errors + latency_signal f p95_latency_ms * w.latency +
    error_count_signal f * w.error_count

/-- `compute_badness` from `badness.py`.  `weights = weights or
DEFAULT_WEIGHTS` becomes `Option.getD` (a dataclass instance is always
truthy, `None` is falsy). -/
def compute_badness (f : TraceFeatures) (p95_latency_ms : ℚ)
    (weights : Option BadnessWeights) : BadnessScore :=
  let w := weights.getD DEFAULT_WEIGHTS
  { trace_id := f.trace_id
    score :=
      if 0 < total_weight w then weighted_signal_sum f p95_latency_ms w / total_weight w
      else 1/2
    signals :=
      { quality_eval := quality_signal f
        grounding_eval := grounding_signal f
        tool_errors := tool_error_signal f
        latency := latency_signal f p95_latency_ms
        error_count := error_count_signal f } }

/-- Pointwise scaling of all five weights by a constant. -/
def scale_weights (c : ℚ) (w : BadnessWeights) : BadnessWeights :=
  { quality_eval := c * w.quality_eval
    grounding_eval := c * w.grounding_eval
    tool_errors := c * w.tool_errors
    latency := c * w.latency
    error_count := c * w.error_count }

/-! ## Dict-as-counter helpers

A Python `dict[str, int]` used as a counter: `m[k] = m.get(k, 0) + 1`
updates an existing key in place and appends a fresh key at the end
(insertion order).  `mget m k` is `m.get(k, 0)`. -/

/-- `m.get(k, 0)` on an insertion-ordered dict. -/
def mget : List (String × ℕ) → String → ℕ
  | [], _ => 0
  | (k, v) :: rest, key => if k = key then v else mget rest key

/-- `m[k] = m.get(k, 0) + 1` on an insertion-ordered dict. -/
def bump : List (String × ℕ) → String → List (String × ℕ)
  | [], key => [(key, 1)]
  | (k, v) :: rest, key => if k = key then (k, v + 1) :: rest else (k, v) :: bump rest key

/-! ## Tool n-grams (`features.py`, `compute_tool_ngrams`) -/

/-- The bigram key strings `f"{s[i]}->{s[i+1]}"` in order of `i`. -/
def bigram_strings (s : List String) : List String :=
  (s.zip s.tail).map fun p => p.1 ++ "->" ++ p.2

/-- `compute_tool_ngrams` from `features.py`: unigram counts first,
then (for `n ≥ 2` and at least two tools) bigram transition counts,
all accumulated into one dict. -/
def compute_tool_ngrams (tool_sequence : List String) (n : ℕ) : List (String × ℕ) :=
  let unigrams := tool_sequence.foldl bump []
  if 2 ≤ n ∧ 2 ≤ tool_sequence.length then (bigram_strings tool_sequence).foldl bump unigrams
  else unigrams

/-! ## Intent derivation (`features.py`, `extract_features_from_spans`
lines 152-186)

Python strings are modelled as `List Char` here because the claim is
about character-level truncation (`len`, `[:50]`).  The
`attributes.crew_inputs` cell is modelled after `json.loads`: `missing`
covers an absent/empty/`"nan"` cell, `notDict` a parse error or a JSON
value that is not an object (both leave the intent unset), and `dict`
a parsed JSON object.  Values are restricted to strings, for which
Python's `str()` is the identity, keeping the model of `str(intent)`
exact; non-string JSON values are outside the model. -/

/-- Parse outcome of the `attributes.crew_inputs` cell. -/
inductive CrewInputs where
  | missing
  | notDict
  | dict (entries : List (List Char × List Char))
  deriving DecidableEq, Repr

/-- The root-span cells read by the intent derivation.  `none` models a
missing column (Python `get` default); a pandas `NaN` cell is modelled
by the string `"nan"`, which is what `str()` turns it into. -/
structure RootSpan where
  crew_inputs : CrewInputs := .missing
  input_value : Option (List Char) := none
  obs_intent : Option (List Char) := none
  name : Option (List Char) := none
  deriving DecidableEq, Repr

/-- `inputs.get("question", inputs.get("topic", inputs.get("task", "")))`. -/
def crew_intent_raw : CrewInputs → List Char
  | .missing => []
  | .notDict => []
  | .dict entries =>
    match List.lookup "question".toList entries with
    | some v => v
    | none =>
      match List.lookup "topic".toList entries with
      | some v => v
      | none => (List.lookup "task".toList entries).getD []

/-- `s[:50] + "..." if len(s) > 50 else s`. -/
def truncate_long (s : List Char) : List Char :=
  if 50 < s.length then s.take 50 ++ "...".toList else s

/-- The intent after the `crew_inputs` source: a truthy value is
truncated, otherwise the intent is still unset. -/
def intent_after_crew (span : RootSpan) : List Char :=
  let raw := crew_intent_raw span.crew_inputs
  if raw ≠ [] then truncate_long raw else []

/-- The intent after also trying `attributes.input.value` (tried
only when still unset; skipped for an empty or `"nan"` cell). -/
def intent_after_input (span : RootSpan) : List Char :=
  if intent_after_crew span ≠ [] then intent_after_crew span
  else
    match span.input_value with
    | none => []
    | some v => if v ≠ [] ∧ v ≠ "nan".toList then truncate_long v else []

/-- The intent after also trying `attributes.obs.intent` (assigned
without truncation when the intent is still unset). -/
def intent_after_obs (span : RootSpan) : List Char :=
  if intent_after_input span ≠ [] then intent_after_input span
  else span.obs_intent.getD []

/-- Does the character at the head of `cs` start a match of the regex
`[a-f0-9]{8}-[a-f0-9]{4}`? -/
def is_hex_char (c : Char) : Bool :=
  (('a' ≤ c) && (c ≤ 'f')) || (('0' ≤ c) && (c ≤ '9'))

/-- Match of the UUID regex at the start of `cs`. -/
def matches_uuid_at (cs : List Char) : Bool :=
  ((cs.take 8).length == 8) && (cs.take 8).all is_hex_char &&
    (match cs.drop 8 with
     | c :: rest => (c == '-') && ((rest.take 4).length == 4) && (rest.take 4).all is_hex_char
     | [] => false)

/-- `re.search(r'[a-f0-9]{8}-[a-f0-9]{4}', s)`: a match at any position. -/
def has_uuid_pattern : List Char → Bool
  | [] => false
  | c :: rest => matches_uuid_at (c :: rest) || has_uuid_pattern rest

/-- The full intent derivation of `extract_features_from_spans`
(lines 152-186): `crew_inputs`, then `input.value`, then `obs.intent`,
then the root-span name with the UUID-pattern substitution. -/
def derive_intent (span : RootSpan) : List Char :=
  let i := intent_after_obs span
  if i ≠ [] ∧ i ≠ "nan".toList then i
  else
    let span_name := span.name.getD "unknown".toList
    if has_uuid_pattern span_name then "crew_execution".toList else span_name

/-! ## Stable sorting

Python's `list.sort(key=..., reverse=True)` is a stable sort, and any
two stable sorts of a list with respect to the same total preorder
produce the same output, so a stable insertion sort is an exact model.
`le x y = true` means `x` may stay before `y`. -/

/-- Stable insertion of `x` into `l`: `x` goes before the first element
it is `le`-related to, hence after all earlier ties. -/
def insort (le : α → α → Bool) (x : α) : List α → List α
  | [] => [x]
  | y :: ys => if le x y then x :: y :: ys else y :: insort le x ys

/-- Stable insertion sort (model of Python's stable `list.sort`). -/
def sort_by (le : α → α → Bool) : List α → List α
  | [] => []
  | x :: xs => insort le x (sort_by le xs)

/-! ## Slice mining (`slicing.py`) -/

/-- `DEFAULT_SLICE_ATTRIBUTES` from `slicing.py` line 16 — note
`"provider"`, while the docstring of `rank_slices` (line 33) and
`DiscoveryConfig.slice_attributes` (pipeline.py lines 39-41) both say
`prompt_version`. -/
def DEFAULT_SLICE_ATTRIBUTES : List String := ["intent", "route", "model", "provider"]

/-- `getattr(f, attr, "unknown")` restricted to the string-typed
fields of `TraceFeatures`; the non-string fields are never sliced on by
the code's callers and are outside the model. -/
def get_attr (f : TraceFeatures) (attr : String) : String :=
  if attr = "intent" then f.intent
  else if attr = "route" then f.route
  else if attr = "model" then f.model
  else if attr = "provider" then f.provider
  else if attr = "prompt_version" then f.prompt_version
  else if attr = "trace_id" then f.trace_id
  else if attr = "input_text" then f.input_text
  else if attr = "output_text" then f.output_text
  else "unknown"

/-- `itertools.combinations(l, d)`: all length-`d` subsequences of `l`
in the order itertools produces them. -/
def combinations : ℕ → List α → List (List α)
  | 0, _ => [[]]
  | _ + 1, [] => []
  | d + 1, x :: xs => ((combinations d xs).map (x :: ·)) ++ combinations (d + 1) xs

/-- The distinct attribute-value keys of `_group_by_attributes`, in
first-occurrence order (a `defaultdict` preserves insertion order). -/
def group_keys (features : List TraceFeatures) (attrs : List String) : List (List String) :=
  features.foldl
    (fun acc f =>
      let k := attrs.map (get_attr f)
      if k ∈ acc then acc else acc ++ [k])
    []

/-- `_group_by_attributes` from `slicing.py`: trace ids grouped by the
tuple of attribute values, members in input order. -/
def group_by_attributes (features : List TraceFeatures) (attrs : List String) :
    List (List String × List String) :=
  (group_keys features attrs).map fun k =>
    (k, (features.filter fun f => attrs.map (get_attr f) == k).map (·.trace_id))

/-- `[badness_scores[tid].score for tid in ids if tid in badness_scores]`
with the dict modelled as an association list. -/
def scores_of (badness : List (String × BadnessScore)) (ids : List String) : List ℚ :=
  (ids.filterMap fun tid => List.lookup tid badness).map (·.score)

/-- `sum(1 for b in scores if b > 0.5)`. -/
def bad_count (scores : List ℚ) : ℕ :=
  (scores.filter fun b => decide ((1 : ℚ)/2 < b)).length

/-- `_compute_significance` from `slicing.py`.  The scipy
`chi2_contingency` p-value is the oracle `chi2` (which also absorbs
scipy's `ValueError`-to-`1.0` fallback, an external behavior); the
guards around it are the source's own logic. -/
def compute_significance (chi2 : ℤ → ℤ → ℤ → ℤ → ℚ)
    (slice_bad slice_total pop_bad pop_total : ℕ) : ℚ :=
  if slice_total = 0 ∨ pop_total = 0 then 1
  else
    let slice_good : ℤ := (slice_total : ℤ) - (slice_bad : ℤ)
    let rest_bad : ℤ := (pop_bad : ℤ) - (slice_bad : ℤ)
    let rest_good : ℤ := ((pop_total : ℤ) - (slice_total : ℤ)) - rest_bad
    if rest_bad < 0 ∨ rest_good < 0 then 1
    else chi2 slice_bad slice_good rest_bad rest_good

/-- The candidate slices built by the two nested loops of `rank_slices`
(before the significance filter and the final sort), given the
precomputed baseline and population counts. -/
def candidate_slices (chi2 : ℤ → ℤ → ℤ → ℤ → ℚ) (features : List TraceFeatures)
    (badness : List (String × BadnessScore)) (attrs : List String)
    (min_slice_size max_slice_depth : ℕ) (baseline_rate : ℚ) (pop_bad pop_total : ℕ) :
    List Slice :=
  (List.range' 1 max_slice_depth).flatMap fun depth =>
    (combinations depth attrs).flatMap fun attr_combo =>
      (group_by_attributes features attr_combo).filterMap fun kv =>
        if kv.2.length < min_slice_size then none
        else
          let slice_badness := scores_of badness kv.2
          if slice_badness = [] then none
          else
            let slice_bad := bad_count slice_badness
            let rate := (slice_bad : ℚ) / (slice_badness.length : ℚ)
            some
              { attributes := attr_combo.zip kv.1
                trace_ids := kv.2
                size := kv.2.length
                badness_rate := rate
                baseline_rate := baseline_rate
                lift := rate / baseline_rate
                p_value := compute_significance chi2 slice_bad slice_badness.length pop_bad pop_total }

/-- `slice_attributes or DEFAULT_SLICE_ATTRIBUTES`: Python `or`
treats both `None` and an empty list as absent. -/
def effective_slice_attributes (slice_attributes : Option (List String)) : List String :=
  match slice_attributes with
  | some l => if l = [] then DEFAULT_SLICE_ATTRIBUTES else l
  | none => DEFAULT_SLICE_ATTRIBUTES

/-- `rank_slices` from `slicing.py`. -/
def rank_slices (chi2 : ℤ → ℤ → ℤ → ℤ → ℚ) (features : List TraceFeatures)
    (badness_scores : List (String × BadnessScore)) (slice_attributes : Option (List String))
    (min_slice_size max_slice_depth : ℕ) (significance_threshold : ℚ) : List Slice :=
  let attrs := effective_slice_attributes slice_attributes
  let all_badness := scores_of badness_scores (features.map (·.trace_id))
  if all_badness = [] then []
  else
    let baseline_raw := (bad_count all_badness : ℚ) / (all_badness.length : ℚ)
    let baseline_rate := if baseline_raw = 0 then 1/1000 else baseline_raw
    let cands := candidate_slices chi2 features badness_scores attrs min_slice_size
      max_slice_depth baseline_rate (bad_count all_badness) all_badness.length
    let significant := cands.filter fun s => decide (s.p_value < significance_threshold)
    let chosen := if significant = [] then cands else significant
    sort_by (fun a b => decide (b.lift ≤ a.lift)) chosen

/-! ## Feature matrix (`features.py`, `build_feature_matrix`) -/

/-- One row of the embedding block: the trace's embedding, or the
`np.zeros(1536)` fallback. -/
def embedding_row (f : TraceFeatures) : List ℚ :=
  f.text_embedding.getD (List.replicate 1536 0)

/-- One row of the scalar block (9 columns, in source order). -/
def scalar_row (f : TraceFeatures) : List ℚ :=
  [f.total_latency_ms, f.llm_latency_ms, f.tool_latency_ms, (f.total_tokens : ℚ),
    (f.llm_calls : ℚ), (f.tool_calls : ℚ), f.tool_success_rate, (f.error_count : ℚ),
    (f.unique_tools_used : ℚ)]

/-- `all_ngrams.update(f.tool_ngrams.keys())` over the batch: a
`Counter` counting, per n-gram, the number of traces containing it. -/
def all_ngram_counts (features : List TraceFeatures) : List (String × ℕ) :=
  features.foldl (fun m f => (f.tool_ngrams.map Prod.fst).foldl bump m) []

/-- `Counter.most_common(20)` key list: counts descending, ties in
insertion order (`most_common` is a stable sort by count). -/
def top_ngrams (features : List TraceFeatures) : List String :=
  ((sort_by (fun a b : String × ℕ => decide (b.2 ≤ a.2)) (all_ngram_counts features)).take
    20).map Prod.fst

/-- One row of the n-gram block. -/
def ngram_row (f : TraceFeatures) (tops : List String) : List ℚ :=
  tops.map fun ng => (mget f.tool_ngrams ng : ℚ)

/-- `build_feature_matrix` from `features.py`: `np.hstack` of the
optional embedding block, the scalar block, and (when any n-grams
exist) the top-20 n-gram block. -/
def build_feature_matrix (features : List TraceFeatures) (include_embedding : Bool) :
    List (List ℚ) :=
  let tops := top_ngrams features
  features.map fun f =>
    (if include_embedding then embedding_row f else []) ++ scalar_row f ++
      (if tops = [] then [] else ngram_row f tops)

/-- The matrix `cluster_traces` feeds to the scaler: `clustering.py`
line 42 passes `include_embedding=True` unconditionally. -/
def clustering_matrix (features : List TraceFeatures) : List (List ℚ) :=
  build_feature_matrix features true

/-! ## Clustering (`clustering.py`) -/

/-- `Counter(values).most_common(1)[0][0]`: first-inserted value with
the maximal count; `"unknown"` for an empty list. -/
def mode_str (values : List String) : String :=
  match sort_by (fun a b : String × ℕ => decide (b.2 ≤ a.2)) (values.foldl bump []) with
  | [] => "unknown"
  | p :: _ => p.1

/-- Pointwise vector addition (`np` broadcasting on equal-length rows). -/
def vec_add (a b : List ℚ) : List ℚ := List.zipWith (· + ·) a b

/-- `cluster_X.mean(axis=0)`. -/
def centroid_of (rows : List (List ℚ)) : List ℚ :=
  match rows with
  | [] => []
  | r :: rs => (rs.foldl vec_add r).map fun x => x / ((rs.length + 1 : ℕ) : ℚ)

/-- Squared Euclidean distance.  `np.linalg.norm` orders points exactly
as the squared distance does (square root is monotone and unavailable
on `ℚ`), and the distances are only ever used for ordering. -/
def sq_dist (a b : List ℚ) : ℚ :=
  (List.zipWith (fun x y => (x - y) ^ 2) a b).sum

/-- `_select_representatives`: all members when at most `n`, otherwise
the `n` members closest to the centroid (`np.argsort` ties are
arbitrary; the model resolves them stably). -/
def select_representatives (cfeatures : List TraceFeatures) (rows : List (List ℚ))
    (centroid : List ℚ) (n : ℕ) : List String :=
  if cfeatures.length ≤ n then cfeatures.map (·.trace_id)
  else
    let indexed := (List.range rows.length).map fun i => (i, sq_dist (rows.getD i []) centroid)
    ((sort_by (fun a b : ℕ × ℚ => decide (a.2 ≤ b.2)) indexed).take n).filterMap fun p =>
      (cfeatures[p.1]?).map (·.trace_id)

/-- `_build_cluster_results` from `clustering.py`.  Iteration over
`set(labels)` (whose order Python leaves unspecified) is modelled in
first-occurrence order; the final sort makes the order of iteration
irrelevant up to ties. -/
def build_cluster_results (features : List TraceFeatures)
    (badness : List (String × BadnessScore)) (labels : List ℤ) (Xs : List (List ℚ)) :
    List ClusterResult :=
  let uniqueLabels := labels.foldl (fun acc x => if x ∈ acc then acc else acc ++ [x]) []
  let clusters := uniqueLabels.filterMap fun cid =>
    if cid = -1 then none
    else
      let cfeatures := ((features.zip labels).filter fun p => decide (p.2 = cid)).map Prod.fst
      let ctrace_ids := cfeatures.map (·.trace_id)
      if ctrace_ids = [] then none
      else
        let cbadness := scores_of badness ctrace_ids
        let avg_badness := if cbadness = [] then (1 : ℚ)/2 else cbadness.sum / (cbadness.length : ℚ)
        let badness_rate :=
          if cbadness = [] then (0 : ℚ) else (bad_count cbadness : ℚ) / (cbadness.length : ℚ)
        let cX := ((Xs.zip labels).filter fun p => decide (p.2 = cid)).map Prod.fst
        let centroid := centroid_of cX
        some
          { cluster_id := cid
            trace_ids := ctrace_ids
            size := ctrace_ids.length
            badness_rate := badness_rate
            avg_badness := avg_badness
            dominant_intent := mode_str (cfeatures.map (·.intent))
            dominant_route := mode_str (cfeatures.map (·.route))
            dominant_model := mode_str (cfeatures.map (·.model))
            example_trace_ids := select_representatives cfeatures cX centroid 5
            centroid := some centroid }
  sort_by (fun a b => decide (b.badness_rate ≤ a.badness_rate)) clusters

/-- `cluster_traces` from `clustering.py`.  `scaler` abstracts
`StandardScaler.fit_transform` and `labeler` the label assignment of
the chosen method (HDBSCAN, or KMeans with the elbow estimate); both
are external sklearn numerics and the theorems below hold for every
choice of them. -/
def cluster_traces (scaler : List (List ℚ) → List (List ℚ)) (labeler : List (List ℚ) → List ℤ)
    (features : List TraceFeatures) (badness : List (String × BadnessScore))
    (min_cluster_size : ℕ) : List ClusterResult :=
  if features.length < min_cluster_size then []
  else
    let Xs := scaler (clustering_matrix features)
    build_cluster_results features badness (labeler Xs) Xs

/-! ## Concrete inputs used by witnesses and counterexamples -/

/-- A trace feature record with every optional part absent. -/
def plain_feature : TraceFeatures := { trace_id := "t" }

/-- Signal record of a trace with no evals, no tools, no latency. -/
def neutral_signals : SignalValues :=
  { quality_eval := 1/2, grounding_eval := 1/2, tool_errors := 0, latency := 0, error_count := 0 }

/-- A feature record whose five sliceable attributes are all distinct. -/
def c3_feature : TraceFeatures :=
  { trace_id := "t", intent := "i", route := "r", model := "m", provider := "p",
    prompt_version := "v" }

/-- A badness map sending trace `"t"` to score 1. -/
def unit_badness : List (String × BadnessScore) :=
  [("t", { trace_id := "t", score := 1, signals := neutral_signals })]

/-- A p-value oracle without access to which no slice theorem below is
stated: the constant 1 (what scipy returns on a degenerate table). -/
def const_one_chi2 : ℤ → ℤ → ℤ → ℤ → ℚ := fun _ _ _ _ => 1

/-- The single slice produced by `rank_slices` on `[plain_feature]`
with the badness map `unit_badness`, attribute list `["intent"]`,
`min_slice_size = 1`, depth 1 and threshold 2. -/
def c4_slice : Slice :=
  { attributes := [("intent", "unknown")], trace_ids := ["t"], size := 1,
    badness_rate := 1, baseline_rate := 1, lift := 1, p_value := 1 }

/-- A root span whose only usable intent source is `obs.intent`,
60 characters long. -/
def obs_intent_span : RootSpan :=
  { obs_intent := some "aaaaaaaaaabbbbbbbbbbccccccccccddddddddddeeeeeeeeeeffffffffff".toList }

/-- A root span whose `crew_inputs` question is 60 characters long. -/
def crew_question_span : RootSpan :=
  { crew_inputs := .dict
      [("question".toList,
        "aaaaaaaaaabbbbbbbbbbccccccccccddddddddddeeeeeeeeeeffffffffff".toList)] }

/-! ## Signal bounds -/

theorem quality_signal_bounds (f : TraceFeatures)
    (hq : ∀ q, f.quality_score = some q → 0 ≤ q ∧ q ≤ 1) :
    0 ≤ quality_signal f ∧ quality_signal f ≤ 1 := by
  cases h : f.quality_score with
  | none => simp [quality_signal, h]; norm_num
  | some q =>
    obtain ⟨h0, h1⟩ := hq q h
    simp only [quality_signal, h]
    constructor <;> linarith

theorem grounding_signal_bounds (f : TraceFeatures)
    (hg : ∀ g, f.grounding_score = some g → 0 ≤ g ∧ g ≤ 1) :
    0 ≤ grounding_signal f ∧ grounding_signal f ≤ 1 := by
  cases h : f.grounding_score with
  | none => simp [grounding_signal, h]; norm_num
  | some g =>
    obtain ⟨h0, h1⟩ := hg g h
    simp only [grounding_signal, h]
    constructor <;> linarith

theorem tool_error_signal_bounds (f : TraceFeatures)
    (ht0 : 0 ≤ f.tool_success_rate) (ht1 : f.tool_success_rate ≤ 1) :
    0 ≤ tool_error_signal f ∧ tool_error_signal f ≤ 1 := by
  unfold tool_error_signal
  constructor <;> linarith

theorem latency_signal_bounds (f : TraceFeatures) (p95 : ℚ) :
    0 ≤ latency_signal f p95 ∧ latency_signal f p95 ≤ 1 := by
  unfold latency_signal
  split_ifs with h
  · exact ⟨le_min (div_nonneg h.1.le h.2.le) zero_le_one, min_le_right _ _⟩
  · norm_num

theorem error_count_signal_bounds (f : TraceFeatures) :
    0 ≤ error_count_signal f ∧ error_count_signal f ≤ 1 := by
  unfold error_count_signal
  split_ifs with h
  · refine ⟨le_min (div_nonneg (by positivity) (by norm_num)) zero_le_one, min_le_right _ _⟩
  · norm_num

/-- C1: for every `TraceFeatures` whose optional eval scores (when
present) lie in `[0,1]`, whose `tool_success_rate` lies in `[0,1]` and
whose `error_count` is non-negative (automatic for `ℕ`), and for every
non-negative weight assignment, the score computed by `compute_badness`
lies in `[0,1]`. -/
theorem compute_badness_score_in_unit_interval (f : TraceFeatures) (p95 : ℚ)
    (w : BadnessWeights)
    (hq : ∀ q, f.quality_score = some q → 0 ≤ q ∧ q ≤ 1)
    (hg : ∀ g, f.grounding_score = some g → 0 ≤ g ∧ g ≤ 1)
    (ht0 : 0 ≤ f.tool_success_rate) (ht1 : f.tool_success_rate ≤ 1)
    (hw1 : 0 ≤ w.quality_eval) (hw2 : 0 ≤ w.grounding_eval) (hw3 : 0 ≤ w.tool_errors)
    (hw4 : 0 ≤ w.latency) (hw5 : 0 ≤ w.error_count) :
    0 ≤ (compute_badness f p95 (some w)).score ∧
      (compute_badness f p95 (some w)).score ≤ 1 := by
  obtain ⟨hq0, hq1⟩ := quality_signal_bounds f hq
  obtain ⟨hg0, hg1⟩ := grounding_signal_bounds f hg
  obtain ⟨hte0, hte1⟩ := tool_error_signal_bounds f ht0 ht1
  obtain ⟨hl0, hl1⟩ := latency_signal_bounds f p95
  obtain ⟨he0, he1⟩ := error_count_signal_bounds f
  simp only [compute_badness, Option.getD_some]
  by_cases hW : 0 < total_weight w
  · rw [if_pos hW]
    have hS0 : 0 ≤ weighted_signal_sum f p95 w := by
      unfold weighted_signal_sum
      have := mul_nonneg hq0 hw1
      have := mul_nonneg hg0 hw2
      have := mul_nonneg hte0 hw3
      have := mul_nonneg hl0 hw4
      have := mul_nonneg he0 hw5
      linarith
    have hSW : weighted_signal_sum f p95 w ≤ total_weight w := by
      unfold weighted_signal_sum total_weight
      have := mul_le_of_le_one_left hw1 hq1
      have := mul_le_of_le_one_left hw2 hg1
      have := mul_le_of_le_one_left hw3 hte1
      have := mul_le_of_le_one_left hw4 hl1
      have := mul_le_of_le_one_left hw5 he1
      linarith
    exact ⟨div_nonneg hS0 hW.le, (div_le_one hW).mpr hSW⟩
  · rw [if_neg hW]
    norm_num

/-- Witness for C1 on a concrete feature record and the default
weights. -/
theorem compute_badness_score_in_unit_interval_witness :
    0 ≤ (compute_badness plain_feature 30000 (some DEFAULT_WEIGHTS)).score ∧
      (compute_badness plain_feature 30000 (some DEFAULT_WEIGHTS)).score ≤ 1 :=
  compute_badness_score_in_unit_interval plain_feature 30000 DEFAULT_WEIGHTS
    (by simp [plain_feature]) (by simp [plain_feature])
    (by norm_num [plain_feature]) (by norm_num [plain_feature])
    (by norm_num [DEFAULT_WEIGHTS]) (by norm_num [DEFAULT_WEIGHTS])
    (by norm_num [DEFAULT_WEIGHTS]) (by norm_num [DEFAULT_WEIGHTS])
    (by norm_num [DEFAULT_WEIGHTS])

theorem total_weight_scale (c : ℚ) (w : BadnessWeights) :
    total_weight (scale_weights c w) = c * total_weight w := by
  simp only [total_weight, scale_weights]
  ring

theorem weighted_signal_sum_scale (f : TraceFeatures) (p95 c : ℚ) (w : BadnessWeights) :
    weighted_signal_sum f p95 (scale_weights c w) = c * weighted_signal_sum f p95 w := by
  simp only [weighted_signal_sum, scale_weights]
  ring

/-- C7: scaling every weight by a constant `c > 0` leaves the score of
`compute_badness` unchanged (weighted-average invariance). -/
theorem compute_badness_weight_scale_invariant (f : TraceFeatures) (p95 : ℚ)
    (w : BadnessWeights) (c : ℚ) (hc : 0 < c) :
    (compute_badness f p95 (some (scale_weights c w))).score =
      (compute_badness f p95 (some w)).score := by
  simp only [compute_badness, Option.getD_some]
  rw [total_weight_scale, weighted_signal_sum_scale]
  by_cases hW : 0 < total_weight w
  · rw [if_pos (by positivity), if_pos hW, mul_div_mul_left _ _ (ne_of_gt hc)]
  · rw [if_neg (by intro h; exact hW (by nlinarith)), if_neg hW]

/-- Witness for C7 with `c = 2` on a concrete feature record and the
default weights. -/
theorem compute_badness_weight_scale_invariant_witness :
    (compute_badness plain_feature 30000 (some (scale_weights 2 DEFAULT_WEIGHTS))).score =
      (compute_badness plain_feature 30000 (some DEFAULT_WEIGHTS)).score :=
  compute_badness_weight_scale_invariant plain_feature 30000 DEFAULT_WEIGHTS 2 (by norm_num)

/-! ## Counter-dict lemmas -/

theorem mget_bump (m : List (String × ℕ)) (k key : String) :
    mget (bump m k) key = mget m key + if k = key then 1 else 0 := by
  induction m with
  | nil =>
    simp only [bump, mget]
    by_cases h : k = key <;> simp [h]
  | cons p rest ih =>
    obtain ⟨a, v⟩ := p
    by_cases hak : a = k
    · subst hak
      simp only [bump, if_pos rfl, mget]
      by_cases h1 : a = key <;> simp [h1]
    · simp only [bump, if_neg hak, mget, ih]
      by_cases h1 : a = key
      · have hk : ¬k = key := fun h2 => hak (h1.trans h2.symm)
        simp [h1, hk]
      · simp [h1]

theorem mget_foldl_bump (ks : List String) (m : List (String × ℕ)) (key : String) :
    mget (ks.foldl bump m) key = mget m key + ks.count key := by
  induction ks generalizing m with
  | nil => simp
  | cons a ks ih =>
    simp only [List.foldl_cons, ih, mget_bump, List.count_cons]
    rcases eq_or_ne a key with h | h
    · subst h
      simp
      omega
    · simp [h, Ne.symm h]

theorem bigram_strings_short (s : List String) (h : s.length < 2) : bigram_strings s = [] := by
  match s with
  | [] => rfl
  | [x] => rfl
  | x :: y :: t => simp at h; omega

theorem bigram_strings_length (s : List String) :
    (bigram_strings s).length = s.length - 1 := by
  simp only [bigram_strings, List.length_map, List.length_zip, List.length_tail]
  omega

/-- C9 (amended): `compute_tool_ngrams` maps each key to the sum of its
occurrences as a tool name and its occurrences as an adjacent-pair
string (the two coincide with separate unigram/bigram counts when no
tool name equals a pair string); the unigram counts sum to `len(s)`,
and the bigram counts sum to `len(s) - 1` when `len(s) ≥ 2` and to `0`
otherwise. -/
theorem compute_tool_ngrams_counts (s : List String) :
    (∀ k, mget (compute_tool_ngrams s 2) k = s.count k + (bigram_strings s).count k) ∧
      (s.dedup.map fun k => s.count k).sum = s.length ∧
      ((bigram_strings s).dedup.map fun k => (bigram_strings s).count k).sum =
        if 2 ≤ s.length then s.length - 1 else 0 := by
  refine ⟨fun k => ?_, ?_, ?_⟩
  · unfold compute_tool_ngrams
    split_ifs with h
    · rw [mget_foldl_bump, mget_foldl_bump]
      simp [mget]
    · rw [mget_foldl_bump]
      have hs : s.length < 2 := by
        rcases Nat.lt_or_ge s.length 2 with h2 | h2
        · exact h2
        · exact absurd ⟨le_refl 2, h2⟩ h
      rw [bigram_strings_short s hs]
      simp [mget]
  · exact List.sum_map_count_dedup_eq_length s
  · rw [List.sum_map_count_dedup_eq_length, bigram_strings_length]
    split_ifs <;> omega

/-- Counterexample to C9 as stated: in the sequence
`["a", "b", "a->b"]` the tool named `"a->b"` occurs once, but the
returned map sends the key `"a->b"` to 2, because the unigram key for
that tool collides with the bigram key of the adjacent pair `(a, b)`. -/
theorem compute_tool_ngrams_collides_on_arrow_name :
    "a->b" ∈ ["a", "b", "a->b"] ∧ (["a", "b", "a->b"] : List String).count "a->b" = 1 ∧
      mget (compute_tool_ngrams ["a", "b", "a->b"] 2) "a->b" = 2 := by decide

/-! ## Stable-sort lemmas -/

theorem insort_perm (le : α → α → Bool) (x : α) (l : List α) :
    List.Perm (insort le x l) (x :: l) := by
  induction l with
  | nil => exact List.Perm.refl _
  | cons y ys ih =>
    cases hxy : le x y
    · simp only [insort, hxy, Bool.false_eq_true, if_false]
      exact (ih.cons y).trans (List.Perm.swap x y ys)
    · simp only [insort, hxy, if_true]
      exact List.Perm.refl _

theorem sort_by_perm (le : α → α → Bool) (l : List α) : List.Perm (sort_by le l) l := by
  induction l with
  | nil => exact List.Perm.refl _
  | cons x xs ih => exact (insort_perm le x (sort_by le xs)).trans (ih.cons x)

theorem pairwise_insort (le : α → α → Bool)
    (htrans : ∀ a b c, le a b = true → le b c = true → le a c = true)
    (htotal : ∀ a b, le a b = true ∨ le b a = true) (x : α) (l : List α)
    (hl : l.Pairwise fun a b => le a b = true) :
    (insort le x l).Pairwise fun a b => le a b = true := by
  induction l with
  | nil => simp [insort]
  | cons y ys ih =>
    rcases List.pairwise_cons.mp hl with ⟨hy, hys⟩
    cases hxy : le x y
    · simp only [insort, hxy, Bool.false_eq_true, if_false]
      refine List.pairwise_cons.mpr ⟨fun z hz => ?_, ih hys⟩
      rcases List.mem_cons.mp ((insort_perm le x ys).mem_iff.mp hz) with hzx | hzys
      · rw [hzx]
        rcases htotal x y with h | h
        · rw [h] at hxy
          exact absurd hxy (by simp)
        · exact h
      · exact hy z hzys
    · simp only [insort, hxy, if_true]
      refine List.pairwise_cons.mpr ⟨fun z hz => ?_, hl⟩
      rcases List.mem_cons.mp hz with rfl | hz
      · exact hxy
      · exact htrans x y z hxy (hy z hz)

theorem pairwise_sort_by (le : α → α → Bool)
    (htrans : ∀ a b c, le a b = true → le b c = true → le a c = true)
    (htotal : ∀ a b, le a b = true ∨ le b a = true) (l : List α) :
    (sort_by le l).Pairwise fun a b => le a b = true := by
  induction l with
  | nil => simp [sort_by]
  | cons x xs ih => exact pairwise_insort le htrans htotal x (sort_by le xs) ih

/-- Sorting with the stable model of `sort(key=key, reverse=True)`
produces a list that is non-increasing in `key`. -/
theorem sorted_sort_by_key_desc (key : α → ℚ) (l : List α) :
    List.Sorted (fun a b => key b ≤ key a) (sort_by (fun a b => decide (key b ≤ key a)) l) := by
  have hp := pairwise_sort_by (fun a b => decide (key b ≤ key a))
    (fun a b c hab hbc => decide_eq_true
      (le_trans (of_decide_eq_true hbc) (of_decide_eq_true hab)))
    (fun a b => by
      rcases le_total (key b) (key a) with h | h
      · exact Or.inl (decide_eq_true h)
      · exact Or.inr (decide_eq_true h)) l
  exact hp.imp fun h => of_decide_eq_true h

/-! ## Sort order of the returned clusters and slices -/

theorem build_cluster_results_sorted (features : List TraceFeatures)
    (badness : List (String × BadnessScore)) (labels : List ℤ) (Xs : List (List ℚ)) :
    List.Sorted (fun a b : ClusterResult => b.badness_rate ≤ a.badness_rate)
      (build_cluster_results features badness labels Xs) :=
  sorted_sort_by_key_desc ClusterResult.badness_rate _

theorem rank_slices_sorted (chi2 : ℤ → ℤ → ℤ → ℤ → ℚ) (features : List TraceFeatures)
    (badness : List (String × BadnessScore)) (sa : Option (List String)) (mss msd : ℕ)
    (thr : ℚ) :
    List.Sorted (fun a b : Slice => b.lift ≤ a.lift)
      (rank_slices chi2 features badness sa mss msd thr) := by
  unfold rank_slices
  by_cases h : scores_of badness (features.map fun f => f.trace_id) = []
  · simp [h]
  · simp only [if_neg h]
    exact sorted_sort_by_key_desc Slice.lift _

/-- C5: the cluster list produced by the clusterer is in non-increasing
`badness_rate` order, and the slice list produced by the slice miner is
in non-increasing `lift` order — for every input and every choice of the
external scaler, label assignment and p-value oracles. -/
theorem discovery_results_sorted (scaler : List (List ℚ) → List (List ℚ))
    (labeler : List (List ℚ) → List ℤ) (cfeatures : List TraceFeatures)
    (cbadness : List (String × BadnessScore)) (min_cluster_size : ℕ)
    (chi2 : ℤ → ℤ → ℤ → ℤ → ℚ) (sfeatures : List TraceFeatures)
    (sbadness : List (String × BadnessScore)) (sa : Option (List String)) (mss msd : ℕ)
    (thr : ℚ) :
    List.Sorted (fun a b : ClusterResult => b.badness_rate ≤ a.badness_rate)
        (cluster_traces scaler labeler cfeatures cbadness min_cluster_size) ∧
      List.Sorted (fun a b : Slice => b.lift ≤ a.lift)
        (rank_slices chi2 sfeatures sbadness sa mss msd thr) := by
  constructor
  · unfold cluster_traces
    split
    · exact List.sorted_nil
    · exact build_cluster_results_sorted _ _ _ _
  · exact rank_slices_sorted chi2 sfeatures sbadness sa mss msd thr

/-! ## Emptiness lemmas for unscored traces -/

theorem scores_of_eq_nil (badness : List (String × BadnessScore)) (ids : List String)
    (h : ∀ id ∈ ids, List.lookup id badness = none) : scores_of badness ids = [] := by
  unfold scores_of
  rw [List.filterMap_eq_nil_iff.mpr h]
  rfl

theorem all_badness_eq_nil (features : List TraceFeatures)
    (badness : List (String × BadnessScore))
    (h : ∀ f ∈ features, List.lookup f.trace_id badness = none) :
    scores_of badness (features.map fun f => f.trace_id) = [] := by
  apply scores_of_eq_nil
  intro id hid
  rcases List.mem_map.mp hid with ⟨f, hf, rfl⟩
  exact h f hf

theorem mem_group_snd_trace_id {features : List TraceFeatures} {attrs : List String}
    {kv : List String × List String} (hkv : kv ∈ group_by_attributes features attrs)
    {id : String} (hid : id ∈ kv.2) : ∃ f ∈ features, f.trace_id = id := by
  unfold group_by_attributes at hkv
  rcases List.mem_map.mp hkv with ⟨k, _, rfl⟩
  rcases List.mem_map.mp hid with ⟨f, hf, rfl⟩
  exact ⟨f, List.mem_of_mem_filter hf, rfl⟩

theorem candidate_slices_eq_nil (chi2 : ℤ → ℤ → ℤ → ℤ → ℚ) (features : List TraceFeatures)
    (badness : List (String × BadnessScore)) (attrs : List String) (mss msd : ℕ)
    (baseline : ℚ) (pb pt : ℕ)
    (h : ∀ f ∈ features, List.lookup f.trace_id badness = none) :
    candidate_slices chi2 features badness attrs mss msd baseline pb pt = [] := by
  unfold candidate_slices
  rw [List.flatMap_eq_nil_iff]
  intro depth _
  rw [List.flatMap_eq_nil_iff]
  intro combo _
  rw [List.filterMap_eq_nil_iff]
  intro kv hkv
  by_cases h1 : kv.2.length < mss
  · rw [if_pos h1]
  · rw [if_neg h1]
    have hsb : scores_of badness kv.2 = [] := by
      apply scores_of_eq_nil
      intro id hid
      rcases mem_group_snd_trace_id hkv hid with ⟨f, hf, rfl⟩
      exact h f hf
    simp [hsb]

/-- C10: when no feature's `trace_id` has an entry in the badness map,
`rank_slices` returns the empty list. -/
theorem rank_slices_empty_when_unscored (chi2 : ℤ → ℤ → ℤ → ℤ → ℚ)
    (features : List TraceFeatures) (badness : List (String × BadnessScore))
    (sa : Option (List String)) (mss msd : ℕ) (thr : ℚ)
    (h : ∀ f ∈ features, List.lookup f.trace_id badness = none) :
    rank_slices chi2 features badness sa mss msd thr = [] := by
  have h0 := all_badness_eq_nil features badness h
  unfold rank_slices
  simp [h0]

/-- Witness for C10: one feature, an empty badness map. -/
theorem rank_slices_empty_when_unscored_witness :
    rank_slices const_one_chi2 [plain_feature] [] none 10 2 (1/20) = [] :=
  rank_slices_empty_when_unscored const_one_chi2 [plain_feature] [] none 10 2 (1/20)
    (by simp)

/-- C6: `rank_slices` returns (a reordering of) exactly the candidate
slices whose `p_value` is strictly below the significance threshold
when at least one candidate passes that filter, and all candidates
otherwise. -/
theorem rank_slices_significance_fallback (chi2 : ℤ → ℤ → ℤ → ℤ → ℚ)
    (features : List TraceFeatures) (badness : List (String × BadnessScore))
    (sa : Option (List String)) (mss msd : ℕ) (thr : ℚ) :
    List.Perm (rank_slices chi2 features badness sa mss msd thr)
      (let attrs := effective_slice_attributes sa
       let all_badness := scores_of badness (features.map fun f => f.trace_id)
       let baseline_raw := (bad_count all_badness : ℚ) / (all_badness.length : ℚ)
       let baseline_rate := if baseline_raw = 0 then 1/1000 else baseline_raw
       let cands := candidate_slices chi2 features badness attrs mss msd baseline_rate
         (bad_count all_badness) all_badness.length
       let significant := cands.filter fun s => decide (s.p_value < thr)
       if significant = [] then cands else significant) := by
  unfold rank_slices
  by_cases h : scores_of badness (features.map fun f => f.trace_id) = []
  · have hl : ∀ f ∈ features, List.lookup f.trace_id badness = none := by
      intro f hf
      have h2 := (List.map_eq_nil_iff.mp
        (show ((features.map fun f => f.trace_id).filterMap
            fun tid => List.lookup tid badness).map BadnessScore.score = [] from h))
      exact List.filterMap_eq_nil_iff.mp h2 f.trace_id (List.mem_map_of_mem _ hf)
    have hc : ∀ baseline pb pt,
        candidate_slices chi2 features badness (effective_slice_attributes sa) mss msd
          baseline pb pt = [] :=
      fun baseline pb pt =>
        candidate_slices_eq_nil chi2 features badness _ mss msd baseline pb pt hl
    simp [h, hc]
  · simp only [if_neg h]
    exact sort_by_perm _ _

/-! ## Lift equation of returned slices -/

theorem mem_candidate_slices_spec {chi2 : ℤ → ℤ → ℤ → ℤ → ℚ} {features : List TraceFeatures}
    {badness : List (String × BadnessScore)} {attrs : List String} {mss msd : ℕ}
    {baseline : ℚ} {pb pt : ℕ} {s : Slice}
    (hs : s ∈ candidate_slices chi2 features badness attrs mss msd baseline pb pt) :
    s.lift = s.badness_rate / s.baseline_rate ∧ s.baseline_rate = baseline := by
  unfold candidate_slices at hs
  rcases List.mem_flatMap.mp hs with ⟨depth, _, hs⟩
  rcases List.mem_flatMap.mp hs with ⟨combo, _, hs⟩
  rcases List.mem_filterMap.mp hs with ⟨kv, _, hsome⟩
  by_cases h1 : kv.2.length < mss
  · rw [if_pos h1] at hsome
    cases hsome
  · rw [if_neg h1] at hsome
    by_cases h2 : scores_of badness kv.2 = []
    · simp [h2] at hsome
    · simp only [h2, if_neg, if_false] at hsome
      have h3 := Option.some.inj hsome
      subst h3
      exact ⟨rfl, rfl⟩

theorem mem_of_filter_fallback {α : Type} [DecidableEq α] {p : α → Bool} {l : List α} {x : α}
    (h : x ∈ if l.filter p = [] then l else l.filter p) : x ∈ l := by
  split at h
  · exact h
  · exact (List.mem_filter.mp h).1

/-- C4: for every slice returned by `rank_slices`, `lift` equals
`badness_rate / baseline_rate` exactly (over `ℚ`, hence a fortiori to
tolerance `1e-9`), where `baseline_rate` is the fraction of scored
traces with score above `0.5`, replaced by `0.001` when that fraction
is zero. -/
theorem rank_slices_lift_exact (chi2 : ℤ → ℤ → ℤ → ℤ → ℚ) (features : List TraceFeatures)
    (badness : List (String × BadnessScore)) (sa : Option (List String)) (mss msd : ℕ)
    (thr : ℚ) (s : Slice) (hs : s ∈ rank_slices chi2 features badness sa mss msd thr) :
    s.lift = s.badness_rate / s.baseline_rate ∧
      s.baseline_rate =
        (let ab := scores_of badness (features.map fun f => f.trace_id)
         let raw := (bad_count ab : ℚ) / (ab.length : ℚ)
         if raw = 0 then 1/1000 else raw) := by
  unfold rank_slices at hs
  by_cases h : scores_of badness (features.map fun f => f.trace_id) = []
  · simp [h] at hs
  · simp only [if_neg h] at hs
    have hs2 := (sort_by_perm (fun a b : Slice => decide (b.lift ≤ a.lift)) _).subset hs
    exact mem_candidate_slices_spec (mem_of_filter_fallback hs2)

/-- Witness for C4: `rank_slices` on one feature with score 1 returns
exactly `c4_slice`, whose fields satisfy the lift equation. -/
theorem rank_slices_lift_exact_witness :
    c4_slice.lift = c4_slice.badness_rate / c4_slice.baseline_rate ∧
      c4_slice.baseline_rate =
        (let ab := scores_of unit_badness ([plain_feature].map fun f => f.trace_id)
         let raw := (bad_count ab : ℚ) / (ab.length : ℚ)
         if raw = 0 then 1/1000 else raw) := by
  refine rank_slices_lift_exact const_one_chi2 [plain_feature] unit_badness (some ["intent"])
    1 1 2 c4_slice ?_
  have heval :
      rank_slices const_one_chi2 [plain_feature] unit_badness (some ["intent"]) 1 1 2 =
        [c4_slice] := by
    norm_num [rank_slices, effective_slice_attributes, candidate_slices, group_by_attributes,
      group_keys, get_attr, combinations, scores_of, bad_count, compute_significance,
      sort_by, insort, plain_feature, unit_badness, const_one_chi2, c4_slice, List.range',
      List.lookup, List.filterMap_cons, List.filterMap_nil, List.filter_cons, List.filter_nil,
      List.foldl_cons, List.foldl_nil, Option.some_ne_none, beq_self_eq_true]
  rw [heval]
  exact List.mem_singleton_self c4_slice

/-! ## Intent truncation -/

theorem truncate_long_length_le (s : List Char) : (truncate_long s).length ≤ 53 := by
  unfold truncate_long
  split_ifs with h
  · rw [List.length_append, List.length_take]
    have h3 : ("...".toList).length = 3 := by decide
    omega
  · omega

/-- C8 (amended): an intent produced by the `crew_inputs` or
`input.value` source is truncated, hence at most 53 characters long,
and (unless it is the literal `"nan"`) it is exactly what
`derive_intent` stores; the `obs.intent` and span-name sources are not
truncated (see the counterexample). -/
theorem intent_from_crew_or_input_truncated (span : RootSpan)
    (h : intent_after_input span ≠ []) :
    (intent_after_input span).length ≤ 53 ∧
      (intent_after_input span ≠ "nan".toList →
        derive_intent span = intent_after_input span) := by
  constructor
  · by_cases h1 : intent_after_crew span ≠ []
    · unfold intent_after_input
      rw [if_pos h1]
      simp only [intent_after_crew]
      split_ifs with h2
      · exact truncate_long_length_le _
      · simp
    · unfold intent_after_input at h ⊢
      rw [if_neg h1] at h ⊢
      cases hv : span.input_value with
      | none =>
        rw [hv] at h
        exact absurd rfl h
      | some v =>
        simp only [hv] at h ⊢
        split_ifs with h2
        · exact truncate_long_length_le _
        · rw [if_neg h2] at h
          exact absurd rfl h
  · intro hnan
    unfold derive_intent intent_after_obs
    rw [if_pos h, if_pos ⟨h, hnan⟩]

/-- Witness for C8 (amended): a 60-character `crew_inputs` question is
stored truncated to 53 characters. -/
theorem intent_from_crew_or_input_truncated_witness :
    (intent_after_input crew_question_span).length ≤ 53 ∧
      derive_intent crew_question_span = intent_after_input crew_question_span := by
  have h := intent_from_crew_or_input_truncated crew_question_span (by decide)
  exact ⟨h.1, h.2 (by decide)⟩

/-- Counterexample to C8 as stated: a 60-character `obs.intent` value
is stored untruncated, so the stored intent exceeds 53 characters. -/
theorem derive_intent_obs_source_not_truncated :
    derive_intent obs_intent_span =
      "aaaaaaaaaabbbbbbbbbbccccccccccddddddddddeeeeeeeeeeffffffffff".toList ∧
      53 < (derive_intent obs_intent_span).length := by decide

/-! ## Feature-matrix width and default slice attributes -/

set_option maxRecDepth 8192 in
/-- C2 (bug evidence): on a feature with no text embedding — the state
of every feature when the pipeline runs with `skip_embeddings = true` —
the matrix `cluster_traces` feeds to the scaler still contains the
1536-wide zero embedding block: its single row has width
`1536 + 9 = 1545`, not the claimed `≤ 29`. -/
theorem clustering_matrix_keeps_zero_embedding_block :
    (clustering_matrix [plain_feature]).map List.length = [1545] := by decide

/-- C3 (bug evidence): called without an explicit attribute list,
`rank_slices` enumerates `DEFAULT_SLICE_ATTRIBUTES`, whose fourth
element is `"provider"` — not `"prompt_version"` as its own docstring
and `DiscoveryConfig` state: on a feature with distinct attribute
values the four depth-1 slices are keyed by `provider`, never by
`prompt_version`. -/
theorem rank_slices_default_attributes_use_provider :
    DEFAULT_SLICE_ATTRIBUTES = ["intent", "route", "model", "provider"] ∧
      "prompt_version" ∉ DEFAULT_SLICE_ATTRIBUTES ∧
      (rank_slices const_one_chi2 [c3_feature] unit_badness none 1 1 1).map
          (fun s => s.attributes) =
        [[("intent", "i")], [("route", "r")], [("model", "m")], [("provider", "p")]] := by
  refine ⟨rfl, by decide, ?_⟩
  norm_num [rank_slices, effective_slice_attributes, candidate_slices, group_by_attributes,
    group_keys, get_attr, combinations, scores_of, bad_count, compute_significance,
    sort_by, insort, c3_feature, unit_badness, const_one_chi2, List.range',
    List.lookup, List.filterMap_cons, List.filterMap_nil, List.filter_cons, List.filter_nil,
    List.foldl_cons, List.foldl_nil, Option.some_ne_none, beq_self_eq_true,
    DEFAULT_SLICE_ATTRIBUTES]
  decide

end Phoenix
